import Mathlib

/-
Shallow embedding of `src/lattice_mc/lattice.py` (class `Lattice`) and of the
interfaces it consumes from the `atom`, `jump` and `transitions` modules (which
are not part of the visible source; where needed they are modelled from the
specification, and each such definition is marked `Modelled from the spec:`).

Conventions of the embedding:
  * Python floats are embedded as `ℚ` (the spec treats them as reals; the
    claims under verification are exact arithmetic identities).
  * Python's mutable object graph is flattened: `Site` and `Atom` objects are
    identified by their `number` field, and object references (`site.atom`,
    `atom.site`, `site.p_neighbours`) become identifier lookups.  The live
    `Atom` objects created by `populate_sites` are carried in an `atoms` field
    of the `Lattice` state (Python keeps them alive through references).
  * Mutating methods become functions `Lattice → Lattice`; fallible operations
    return `Except LatticeError _`.  An exception raised before any mutation is
    an `Except.error` that produces no successor state.
  * Random draws are abstracted as explicit arguments: the index used by
    event selection and the sampled waiting time of each `time_to_jump` call.
-/

namespace LatticeMC

/-- A lattice site (the `Site` objects consumed by `lattice.py`): identifier,
label, 3-d position, fixed neighbour identifier list, occupation state, the
occupying atom (by identifier, `none` when vacant), the `occupation` field the
source sets to the atom number or `0`, and the cumulative occupied time. -/
structure Site where
  number : Nat
  label : String
  r : ℚ × ℚ × ℚ
  neighbours : List Nat
  is_occupied : Bool
  occupation : Nat
  atom : Option Nat
  time_occupied : ℚ
  deriving Repr, DecidableEq

/-- A mobile particle (`atom.Atom`): identifier, current site (by identifier),
hop count, accumulated displacement and accumulated squared displacement. -/
structure Atom where
  number : Nat
  site : Nat
  number_of_hops : Nat
  dr : ℚ × ℚ × ℚ
  summed_dr2 : ℚ
  deriving Repr, DecidableEq

/-- Error kinds of the spec (§7).  `InvalidConfiguration` is realised in the
source by the `assert` in `populate_sites`; `UndefinedStatistic` by the
`ZeroDivisionError` Python raises in `site_occupation_statistics` when
`time = 0`; `NoTransitionsAvailable` by the sampling failure of the
(spec-modelled) `transitions` module on an empty candidate set. -/
inductive LatticeError where
  | InvalidConfiguration
  | NoTransitionsAvailable
  | UndefinedStatistic
  deriving Repr, DecidableEq

/-- The `Lattice` state: the fields `__init__` and `populate_sites` establish.
Python leaves `number_of_occupied_sites` unset until `populate_sites` runs; the
embedding stores it as a plain field.  The energy-model fields (`nn_energy`,
`site_energies`, `jump_lookup_table`) are consumed only by the abstracted rate
sampler and are omitted. -/
structure Lattice where
  cell_lengths : ℚ × ℚ × ℚ
  sites : List Site
  number_of_sites : Nat
  number_of_occupied_sites : Nat
  time : ℚ
  atoms : List Atom
  deriving Repr, DecidableEq

/-- One coordinate of `Lattice.enforce_periodic_boundary_conditions`: the two
conditional shifts are applied in sequence, the second testing the value
produced by the first (`if s.r[i] < 0.0: s.r[i] += L` then
`if s.r[i] > L: s.r[i] -= L`). -/
def wrapCoordinate (L x : ℚ) : ℚ :=
  let x1 := if x < 0 then x + L else x
  if x1 > L then x1 - L else x1

/-- The per-site effect of `enforce_periodic_boundary_conditions` (the loop
over the three axes). -/
def enforceSite (L : ℚ × ℚ × ℚ) (s : Site) : Site :=
  { s with r := (wrapCoordinate L.1 s.r.1,
                 wrapCoordinate L.2.1 s.r.2.1,
                 wrapCoordinate L.2.2 s.r.2.2) }

def Lattice.enforce_periodic_boundary_conditions (lat : Lattice) : Lattice :=
  { lat with sites := lat.sites.map (enforceSite lat.cell_lengths) }

def Lattice.reset (lat : Lattice) : Lattice :=
  { lat with
    time := 0,
    sites := lat.sites.map (fun s => { s with time_occupied := 0 }) }

/-- `Lattice.__init__`: stores sites and cell lengths, records the site count,
applies `enforce_periodic_boundary_conditions`, and ends with `reset()`.
Python does not set `number_of_occupied_sites` here (it appears only when
`populate_sites` runs); the embedding initialises the field to 0.  No atoms
exist yet. -/
def Lattice.init (sites : List Site) (cell_lengths : ℚ × ℚ × ℚ) : Lattice :=
  Lattice.reset
    (Lattice.enforce_periodic_boundary_conditions
      { cell_lengths := cell_lengths,
        sites := sites,
        number_of_sites := sites.length,
        number_of_occupied_sites := 0,
        time := 0,
        atoms := [] })

/-- `site_with_id` / the `site_lookup` dict: resolve a site identifier.  The
dict would raise `KeyError` on an unresolvable identifier; the embedding
returns `none` there (spec §6 requires neighbour identifiers to be resolvable
within the site list, and all claims are settled on such lattices). -/
def Lattice.site_with_id (lat : Lattice) (n : Nat) : Option Site :=
  lat.sites.find? (fun s => s.number == n)

def Lattice.occupied_sites (lat : Lattice) : List Site :=
  lat.sites.filter (fun s => s.is_occupied)

def Lattice.vacant_sites (lat : Lattice) : List Site :=
  lat.sites.filter (fun s => !s.is_occupied)

/-- A candidate jump (`jump.Jump`): the source pair of sites.  The rate and
lookup-table arguments of the constructor feed only the (abstracted) sampler. -/
structure Jump where
  initial_site : Site
  final_site : Site
  deriving Repr, DecidableEq

/-- `Lattice.potential_jumps`: all (occupied source, vacant neighbour target)
pairs, enumerated from the occupied side when
`number_of_occupied_sites <= number_of_sites / 2` and from the vacant side
otherwise.  The Python comparison is against the exact real `n / 2`, i.e.
`2 * occupied ≤ n`. -/
def Lattice.potential_jumps (lat : Lattice) : List Jump :=
  if 2 * lat.number_of_occupied_sites ≤ lat.number_of_sites then
    lat.occupied_sites.flatMap (fun occupied_site =>
      (((occupied_site.neighbours.filterMap lat.site_with_id).filter
          (fun site => !site.is_occupied)).map
        (fun vacant_site => Jump.mk occupied_site vacant_site)))
  else
    lat.vacant_sites.flatMap (fun vacant_site =>
      (((vacant_site.neighbours.filterMap lat.site_with_id).filter
          (fun site => site.is_occupied)).map
        (fun occupied_site => Jump.mk occupied_site vacant_site)))

/-- Modelled from the spec: the `jump` module is not in `src/`.  Spec §4.2:
the displacement is `target.position - source.position` with each axis
component shifted by one cell length when its magnitude exceeds half the cell
length (minimum-image convention). -/
def minimumImage (L d : ℚ) : ℚ :=
  if d > L / 2 then d - L else if d < -(L / 2) then d + L else d

/-- Modelled from the spec: `jump.Jump.dr(cell_lengths)`, the periodic-
corrected displacement vector of the jump (spec §4.2). -/
def Jump.dr (j : Jump) (cell_lengths : ℚ × ℚ × ℚ) : ℚ × ℚ × ℚ :=
  (minimumImage cell_lengths.1 (j.final_site.r.1 - j.initial_site.r.1),
   minimumImage cell_lengths.2.1 (j.final_site.r.2.1 - j.initial_site.r.2.1),
   minimumImage cell_lengths.2.2 (j.final_site.r.2.2 - j.initial_site.r.2.2))

def dot3 (a b : ℚ × ℚ × ℚ) : ℚ :=
  a.1 * b.1 + a.2.1 * b.2.1 + a.2.2 * b.2.2

/-- The site-list effect of `Lattice.update`: set the target occupied by the
moving atom and clear the source.  Python writes the `final_site` fields first
and the `initial_site` fields second, so on a (degenerate) identical pair the
source clearing wins; the conditional tests the source identifier first to
keep that last-write-wins order. -/
def applyJumpToSite (j : Jump) (atomNumber : Option Nat) (s : Site) : Site :=
  if s.number = j.initial_site.number then
    { s with occupation := 0, atom := none, is_occupied := false }
  else if s.number = j.final_site.number then
    { s with occupation := atomNumber.getD 0, atom := atomNumber,
             is_occupied := true }
  else s

/-- `Lattice.update(jump)`: read the moving atom from the jump's source site,
flip the two occupations, and update the atom's site reference, hop count and
accumulated displacements with the jump's periodic-corrected vector.  Python
reads `jump.initial_site.atom` from the live object; between enumeration and
`update` only `time_occupied` fields change, so the snapshot's `atom` field
coincides with the live one.  (Python's `atom.number` dereference presumes the
source site is occupied; `getD 0` stands for that dereference.) -/
def Lattice.update (lat : Lattice) (j : Jump) : Lattice :=
  let movingAtom := j.initial_site.atom
  let d := j.dr lat.cell_lengths
  { lat with
    sites := lat.sites.map (applyJumpToSite j movingAtom),
    atoms := lat.atoms.map (fun a =>
      if some a.number = movingAtom then
        { a with site := j.final_site.number,
                 number_of_hops := a.number_of_hops + 1,
                 dr := (a.dr.1 + d.1, a.dr.2.1 + d.2.1, a.dr.2.2 + d.2.2),
                 summed_dr2 := a.summed_dr2 + dot3 d d }
      else a) }

def Lattice.update_site_occupation_times (lat : Lattice) (delta_t : ℚ) :
    Lattice :=
  { lat with
    sites := lat.sites.map (fun site =>
      if site.is_occupied then
        { site with time_occupied := site.time_occupied + delta_t }
      else site) }

/-- Modelled from the spec: the `atom` module is not in `src/`.  Spec §4.1:
`populate` "creates one Particle per selected site, occupying it"; spec §3
gives each particle a unique identifier and zero-initialised hop count and
displacements.  Identifiers are assigned 1, 2, … in sample order. -/
def mkAtomsFrom (k : Nat) : List Site → List Atom
  | [] => []
  | s :: rest =>
    { number := k, site := s.number, number_of_hops := 0,
      dr := (0, 0, 0), summed_dr2 := 0 } :: mkAtomsFrom (k + 1) rest

def mkAtoms (sample : List Site) : List Atom :=
  mkAtomsFrom 1 sample

/-- `Lattice.populate_sites(number_of_atoms)`: the `assert` fails when the
request exceeds the site count (realising `InvalidConfiguration`); otherwise
one `Atom` is constructed per sampled site, occupying it, and
`number_of_occupied_sites` is set.  `random.sample(self.sites, n)` is
abstracted as the explicit argument `sample`; its contract (a length-`n`
selection of distinct sites from `lat.sites`) appears as a hypothesis of the
theorems. -/
def Lattice.populate_sites (lat : Lattice) (sample : List Site)
    (number_of_atoms : Nat) : Except LatticeError (Lattice × List Atom) :=
  if number_of_atoms ≤ lat.number_of_sites then
    let atoms := mkAtoms sample
    Except.ok
      ({ lat with
         sites := lat.sites.map (fun s =>
           match atoms.find? (fun a => a.site == s.number) with
           | some a => { s with is_occupied := true, occupation := a.number,
                                atom := some a.number }
           | none => s),
         number_of_occupied_sites := number_of_atoms,
         atoms := atoms },
       atoms)
  else Except.error LatticeError.InvalidConfiguration

/-- Modelled from the spec: the `transitions` module is not in `src/`.
`transitions.Transitions` carries the candidate jump list. -/
structure Transitions where
  jumps : List Jump
  deriving Repr, DecidableEq

/-- Modelled from the spec: `Transitions.random()` (spec §4.3 `sampleEvent`)
selects one jump from the candidate list, rate-weighted; the random draw is
abstracted into the supplied index `sel`, reduced modulo the list length.  On
an empty candidate set the sampler fails with `NoTransitionsAvailable`
(spec §7). -/
def Transitions.random (t : Transitions) (sel : Nat) :
    Except LatticeError Jump :=
  if h : t.jumps = [] then Except.error LatticeError.NoTransitionsAvailable
  else
    Except.ok (t.jumps.get ⟨sel % t.jumps.length,
      Nat.mod_lt _ (List.length_pos.mpr h)⟩)

/-- Modelled from the spec: `Transitions.time_to_jump()` (spec §4.3
`sampleWaitingTime`) draws `Δt = -ln(u) / R_total` with a FRESH uniform `u` on
every call; the sampled value of one call is abstracted into the supplied
`draw`.  It fails with `NoTransitionsAvailable` when the candidate set is
empty (total rate zero), spec §7. -/
def Transitions.time_to_jump (t : Transitions) (draw : ℚ) :
    Except LatticeError ℚ :=
  if t.jumps = [] then Except.error LatticeError.NoTransitionsAvailable
  else Except.ok draw

/-- `Lattice.jump()`, one KMC step, in source order (lattice.py lines 93-100):
build `Transitions` from `potential_jumps`, sample the jump, call
`time_to_jump()` for `delta_t`, advance `time`, add the waiting time to every
occupied site, apply the jump — and return the value of a SECOND
`time_to_jump()` call (line 100), whose fresh draw is `w2`. -/
def Lattice.jump (lat : Lattice) (sel : Nat) (w1 w2 : ℚ) :
    Except LatticeError (Lattice × ℚ) := do
  let all_transitions : Transitions := { jumps := lat.potential_jumps }
  let random_jump ← all_transitions.random sel
  let delta_t ← all_transitions.time_to_jump w1
  let lat1 := { lat with time := lat.time + delta_t }
  let lat2 := lat1.update_site_occupation_times delta_t
  let lat3 := lat2.update random_jump
  let returned ← all_transitions.time_to_jump w2
  return (lat3, returned)

/-- `self.site_labels`, the Python `set` of distinct labels, embedded as a
deduplicated list (a set: only membership matters). -/
def Lattice.site_labels (lat : Lattice) : List String :=
  (lat.sites.map (fun s => s.label)).dedup

/-- The occupied time accumulated on sites carrying a given label (the first
loop of `site_occupation_statistics`). -/
def Lattice.label_occupied_time (lat : Lattice) (label : String) : ℚ :=
  ((lat.sites.filter (fun s => s.label == label)).map
    (fun s => s.time_occupied)).sum

/-- `Lattice.site_occupation_statistics()`: per label, total occupied time
divided by `self.time`.  When at least one label exists and `time = 0` the
Python division raises `ZeroDivisionError` (realising `UndefinedStatistic`);
with no sites the division loop never runs and the empty mapping is returned
even at `time = 0`.  ℚ-division is total, so the embedding surfaces the raise
explicitly. -/
def Lattice.site_occupation_statistics (lat : Lattice) :
    Except LatticeError (List (String × ℚ)) :=
  if lat.site_labels ≠ [] ∧ lat.time = 0 then
    Except.error LatticeError.UndefinedStatistic
  else
    Except.ok (lat.site_labels.map (fun label =>
      (label, lat.label_occupied_time label / lat.time)))

/-- The loop body of `site_coordination_numbers`: insert
`label ↦ len(neighbours)` only when the label is not yet a key
(`if site.label not in coordination_numbers`). -/
def coordInsert (coordination_numbers : List (String × Nat)) (site : Site) :
    List (String × Nat) :=
  if (coordination_numbers.find? (fun p => p.1 == site.label)).isSome then
    coordination_numbers
  else
    coordination_numbers ++ [(site.label, site.neighbours.length)]

/-- `Lattice.site_coordination_numbers()`: first-occurrence insertion into a
mapping label ↦ neighbour-list length, embedded as an association list in
insertion order. -/
def Lattice.site_coordination_numbers (lat : Lattice) : List (String × Nat) :=
  lat.sites.foldl coordInsert []

/-- Derived observer: the number of sites whose occupation flag is set. -/
def Lattice.countOccupied (lat : Lattice) : Nat :=
  (lat.sites.filter (fun s => s.is_occupied)).length

/-- Derived observer: the sum of `time_occupied` over all sites. -/
def Lattice.totalOccupiedTime (lat : Lattice) : ℚ :=
  (lat.sites.map (fun s => s.time_occupied)).sum

/-- Driving loop: attempt a sequence of `jump()` calls, each with its own
sampler inputs; a failed call raises before any mutation, so the state is
kept unchanged and the run continues from it. -/
def Lattice.runSteps (lat : Lattice) : List (Nat × ℚ × ℚ) → Lattice
  | [] => lat
  | input :: rest =>
    match lat.jump input.1 input.2.1 input.2.2 with
    | Except.ok (lat', _) => lat'.runSteps rest
    | Except.error _ => lat.runSteps rest

/-! Concrete lattices used as test inputs and counterexamples. -/

/-- A site placed outside the periodic cell (coordinate 5/2 with cell length
1), exercising the boundary wrap at construction. -/
def c3Site : Site :=
  { number := 0, label := "A", r := (5/2, 0, 0), neighbours := [],
    is_occupied := false, occupation := 0, atom := none, time_occupied := 0 }

/-- Occupied site 0 of a symmetric two-site lattice. -/
def siteA : Site :=
  { number := 0, label := "A", r := (0, 0, 0), neighbours := [1],
    is_occupied := true, occupation := 1, atom := some 1, time_occupied := 0 }

/-- Vacant site 1 of a symmetric two-site lattice. -/
def siteB : Site :=
  { number := 1, label := "B", r := (0, 0, 0), neighbours := [0],
    is_occupied := false, occupation := 0, atom := none, time_occupied := 0 }

def atomA : Atom :=
  { number := 1, site := 0, number_of_hops := 0, dr := (0, 0, 0),
    summed_dr2 := 0 }

/-- Two sites, one particle on site 0, vacancy on site 1, adjacency symmetric:
exactly one candidate jump exists. -/
def lat2s : Lattice :=
  { cell_lengths := (1, 1, 1), sites := [siteA, siteB], number_of_sites := 2,
    number_of_occupied_sites := 1, time := 0, atoms := [atomA] }

/-- A fully occupied one-site lattice: no candidate jumps. -/
def latFull : Lattice :=
  { cell_lengths := (1, 1, 1),
    sites := [{ number := 0, label := "A", r := (0, 0, 0), neighbours := [0],
                is_occupied := true, occupation := 1, atom := some 1,
                time_occupied := 0 }],
    number_of_sites := 1, number_of_occupied_sites := 1, time := 0,
    atoms := [atomA] }

/-- A deadlocked state that is NOT fully occupied: the only occupied site has
an empty neighbour list, and a vacant site exists elsewhere — the candidate
jump set is empty although vacancies remain. -/
def latIso : Lattice :=
  { cell_lengths := (1, 1, 1),
    sites := [{ number := 0, label := "A", r := (0, 0, 0), neighbours := [],
                is_occupied := true, occupation := 1, atom := some 1,
                time_occupied := 0 },
              { number := 1, label := "A", r := (0, 0, 0), neighbours := [],
                is_occupied := false, occupation := 0, atom := none,
                time_occupied := 0 }],
    number_of_sites := 2, number_of_occupied_sites := 1, time := 0,
    atoms := [atomA] }

/-- Occupied site of the asymmetric-adjacency counterexample: it lists the
vacant site 2 as a neighbour, but site 2 lists nobody. -/
def c6s0 : Site :=
  { number := 0, label := "A", r := (0, 0, 0), neighbours := [2],
    is_occupied := true, occupation := 1, atom := some 1, time_occupied := 0 }

def c6s1 : Site :=
  { number := 1, label := "A", r := (0, 0, 0), neighbours := [],
    is_occupied := true, occupation := 2, atom := some 2, time_occupied := 0 }

def c6s2 : Site :=
  { number := 2, label := "A", r := (0, 0, 0), neighbours := [],
    is_occupied := false, occupation := 0, atom := none, time_occupied := 0 }

/-- Three sites, two occupied, adjacency NOT symmetric: the majority-occupied
branch of `potential_jumps` iterates vacant sites and finds nothing, although
an (occupied source, vacant neighbour target) pair exists. -/
def latC6 : Lattice :=
  { cell_lengths := (1, 1, 1), sites := [c6s0, c6s1, c6s2],
    number_of_sites := 3, number_of_occupied_sites := 2, time := 0,
    atoms := [atomA, { number := 2, site := 1, number_of_hops := 0,
                       dr := (0, 0, 0), summed_dr2 := 0 }] }

/-- Two sites sharing the label "A" with different coordination numbers: only
the first one determines `site_coordination_numbers`. -/
def latC10 : Lattice :=
  { cell_lengths := (1, 1, 1),
    sites := [{ number := 0, label := "A", r := (0, 0, 0), neighbours := [1],
                is_occupied := false, occupation := 0, atom := none,
                time_occupied := 0 },
              { number := 1, label := "A", r := (0, 0, 0),
                neighbours := [0, 0, 0], is_occupied := false,
                occupation := 0, atom := none, time_occupied := 0 }],
    number_of_sites := 2, number_of_occupied_sites := 0, time := 0,
    atoms := [] }

/-- Site 0 of the two-site lattice, in its vacant state. -/
def siteA0 : Site :=
  { number := 0, label := "A", r := (0, 0, 0), neighbours := [1],
    is_occupied := false, occupation := 0, atom := none, time_occupied := 0 }

/-- Two vacant sites with a particle-free state, the base lattice of the
population and stepping witnesses. -/
def latEmpty2 : Lattice :=
  { cell_lengths := (1, 1, 1), sites := [siteA0, siteB],
    number_of_sites := 2, number_of_occupied_sites := 0, time := 0,
    atoms := [] }

/-- A one-site lattice with elapsed time 1 and accumulated occupied time 1,
for the occupation-statistics witness. -/
def latC8 : Lattice :=
  { cell_lengths := (1, 1, 1),
    sites := [{ number := 0, label := "A", r := (0, 0, 0), neighbours := [0],
                is_occupied := true, occupation := 1, atom := some 1,
                time_occupied := 1 }],
    number_of_sites := 1, number_of_occupied_sites := 1, time := 1,
    atoms := [atomA] }

/-! Helper lemmas. -/

theorem find?_key_isSome (acc : List (String × Nat)) (lab : String) :
    (acc.find? (fun q => q.1 == lab)).isSome = true ↔
      lab ∈ acc.map Prod.fst := by
  rw [List.find?_isSome]
  constructor
  · rintro ⟨q, hq, hlab⟩
    exact List.mem_map.mpr ⟨q, hq, (beq_iff_eq.mp hlab)⟩
  · rintro h
    rcases List.mem_map.mp h with ⟨q, hq, rfl⟩
    exact ⟨q, hq, beq_self_eq_true _⟩

theorem coord_find_preserved (sites : List Site) (acc : List (String × Nat))
    (lab : String) (p : String × Nat)
    (h : acc.find? (fun q => q.1 == lab) = some p) :
    (sites.foldl coordInsert acc).find? (fun q => q.1 == lab) = some p := by
  induction sites generalizing acc with
  | nil => simpa using h
  | cons s rest ih =>
    simp only [List.foldl_cons]
    apply ih
    unfold coordInsert
    split
    · exact h
    · rw [List.find?_append, h]
      rfl

theorem coord_find_new (sites : List Site) (acc : List (String × Nat))
    (lab : String) (s0 : Site)
    (hacc : acc.find? (fun q => q.1 == lab) = none)
    (hfind : sites.find? (fun s => s.label == lab) = some s0) :
    (sites.foldl coordInsert acc).find? (fun q => q.1 == lab) =
      some (lab, s0.neighbours.length) := by
  induction sites generalizing acc with
  | nil => simp at hfind
  | cons s rest ih =>
    simp only [List.foldl_cons]
    rcases hlab : (s.label == lab) with _ | _
    · have hfind' : rest.find? (fun s => s.label == lab) = some s0 := by
        rw [List.find?_cons, hlab] at hfind
        exact hfind
      apply ih _ _ hfind'
      unfold coordInsert
      split
      · exact hacc
      · rw [List.find?_append, hacc, Option.none_or]
        simp [List.find?, hlab]
    · have hs0 : s0 = s := by
        rw [List.find?_cons, hlab] at hfind
        exact (Option.some_inj.mp hfind).symm
      have hlab' : s.label = lab := beq_iff_eq.mp hlab
      have hins : coordInsert acc s =
          acc ++ [(s.label, s.neighbours.length)] := by
        unfold coordInsert
        rw [hlab', hacc]
        simp
      rw [hins]
      apply coord_find_preserved
      rw [List.find?_append, hacc, Option.none_or]
      simp [List.find?, hlab', hs0]

theorem coord_keys_mem (sites : List Site) (acc : List (String × Nat))
    (lab : String) :
    lab ∈ (sites.foldl coordInsert acc).map Prod.fst ↔
      (lab ∈ acc.map Prod.fst ∨ ∃ s ∈ sites, s.label = lab) := by
  induction sites generalizing acc with
  | nil => simp
  | cons s rest ih =>
    simp only [List.foldl_cons]
    rw [ih]
    have hstep : lab ∈ (coordInsert acc s).map Prod.fst ↔
        (lab ∈ acc.map Prod.fst ∨ s.label = lab) := by
      unfold coordInsert
      split
      · rename_i hsome
        constructor
        · exact fun h => Or.inl h
        · rintro (h | h)
          · exact h
          · subst h
            exact (find?_key_isSome acc s.label).mp hsome
      · simp [eq_comm]
    rw [hstep]
    simp only [List.mem_cons]
    constructor
    · rintro ((h | h) | ⟨t, ht, rfl⟩)
      · exact Or.inl h
      · exact Or.inr ⟨s, Or.inl rfl, h⟩
      · exact Or.inr ⟨t, Or.inr ht, rfl⟩
    · rintro (h | ⟨t, (rfl | ht), rfl⟩)
      · exact Or.inl (Or.inl h)
      · exact Or.inl (Or.inr rfl)
      · exact Or.inr ⟨t, ht, rfl⟩

theorem coord_keys_nodup (sites : List Site) (acc : List (String × Nat))
    (hacc : (acc.map Prod.fst).Nodup) :
    ((sites.foldl coordInsert acc).map Prod.fst).Nodup := by
  induction sites generalizing acc with
  | nil => simpa using hacc
  | cons s rest ih =>
    simp only [List.foldl_cons]
    apply ih
    unfold coordInsert
    split
    · exact hacc
    · rename_i hnone
      rw [List.map_append]
      simp only [List.map_cons, List.map_nil]
      rw [List.nodup_append]
      refine ⟨hacc, List.nodup_singleton _, ?_⟩
      intro a ha hb
      simp only [List.mem_singleton] at hb
      subst hb
      have : (acc.find? (fun q => q.1 == s.label)).isSome = true :=
        (find?_key_isSome acc s.label).mpr ha
      rw [Bool.not_eq_true, ← Bool.not_eq_true] at hnone
      simp [this] at hnone

theorem find?_map_pair (labels : List String) (f : String → ℚ) (lab : String)
    (h : lab ∈ labels) :
    ((labels.map (fun l => (l, f l))).find? (fun p => p.1 == lab)) =
      some (lab, f lab) := by
  induction labels with
  | nil => simp at h
  | cons l rest ih =>
    rcases List.mem_cons.mp h with rfl | hrest
    · simp [List.find?]
    · by_cases hl : l = lab
      · subst hl
        simp [List.find?]
      · have : (l == lab) = false := beq_eq_false_iff_ne.mpr hl
        simp only [List.map_cons, List.find?, this]
        exact ih hrest

theorem mkAtomsFrom_length (k : Nat) (sample : List Site) :
    (mkAtomsFrom k sample).length = sample.length := by
  induction sample generalizing k with
  | nil => rfl
  | cons s rest ih => simp [mkAtomsFrom, ih]

theorem mkAtomsFrom_sites (k : Nat) (sample : List Site) :
    (mkAtomsFrom k sample).map (fun a => a.site) =
      sample.map (fun s => s.number) := by
  induction sample generalizing k with
  | nil => rfl
  | cons s rest ih => simp [mkAtomsFrom, ih]

theorem mkAtomsFrom_ge (k : Nat) (sample : List Site) :
    ∀ a ∈ mkAtomsFrom k sample, k ≤ a.number := by
  induction sample generalizing k with
  | nil => intro a ha; simp [mkAtomsFrom] at ha
  | cons s rest ih =>
    intro a ha
    rcases List.mem_cons.mp ha with rfl | hmem
    · exact Nat.le_refl k
    · exact Nat.le_of_succ_le (ih (k + 1) a hmem)

theorem mkAtomsFrom_numbers_nodup (k : Nat) (sample : List Site) :
    ((mkAtomsFrom k sample).map (fun a => a.number)).Nodup := by
  induction sample generalizing k with
  | nil => simp [mkAtomsFrom]
  | cons s rest ih =>
    simp only [mkAtomsFrom, List.map_cons, List.nodup_cons]
    refine ⟨?_, ih (k + 1)⟩
    intro hmem
    rcases List.mem_map.mp hmem with ⟨a, ha, hnum⟩
    have := mkAtomsFrom_ge (k + 1) rest a ha
    omega

theorem find?_number_of_mem (l : List Site)
    (hnodup : (l.map (fun s => s.number)).Nodup) (s : Site) (hs : s ∈ l) :
    l.find? (fun t => t.number == s.number) = some s := by
  induction l with
  | nil => simp at hs
  | cons h t ih =>
    rcases List.mem_cons.mp hs with rfl | hmem
    · simp [List.find?]
    · by_cases hnum : h.number = s.number
      · have : h = s :=
          List.inj_on_of_nodup_map hnodup (List.mem_cons_self h t) hs hnum
        subst this
        simp [List.find?]
      · have hbeq : (h.number == s.number) = false := by simpa using hnum
        simp only [List.find?, hbeq]
        simp only [List.map_cons, List.nodup_cons] at hnodup
        exact ih hnodup.2 hmem

/-- Soundness of `potential_jumps` on either branch: every enumerated jump
goes from an occupied lattice site to a vacant lattice site. -/
theorem potential_jumps_sound (lat : Lattice) (j : Jump)
    (hj : j ∈ lat.potential_jumps) :
    j.initial_site ∈ lat.sites ∧ j.initial_site.is_occupied = true ∧
    j.final_site ∈ lat.sites ∧ j.final_site.is_occupied = false := by
  unfold Lattice.potential_jumps at hj
  split at hj
  · rcases List.mem_flatMap.mp hj with ⟨occ, hocc, hj2⟩
    rcases List.mem_map.mp hj2 with ⟨vac, hvac, rfl⟩
    have h1 := List.mem_filter.mp hocc
    have h2 := List.mem_filter.mp hvac
    rcases List.mem_filterMap.mp h2.1 with ⟨n, _, hfind⟩
    exact ⟨h1.1, h1.2, List.mem_of_find?_eq_some hfind, by simpa using h2.2⟩
  · rcases List.mem_flatMap.mp hj with ⟨vac, hvac, hj2⟩
    rcases List.mem_map.mp hj2 with ⟨occ, hocc, rfl⟩
    have h1 := List.mem_filter.mp hvac
    have h2 := List.mem_filter.mp hocc
    rcases List.mem_filterMap.mp h2.1 with ⟨n, _, hfind⟩
    exact ⟨List.mem_of_find?_eq_some hfind, h2.2, h1.1, by simpa using h1.2⟩

theorem tick_site_numflag (lat : Lattice) (δ : ℚ) :
    (lat.update_site_occupation_times δ).sites.map
        (fun s => (s.number, s.is_occupied)) =
      lat.sites.map (fun s => (s.number, s.is_occupied)) := by
  unfold Lattice.update_site_occupation_times
  simp only [List.map_map]
  apply List.map_congr_left
  intro s _
  by_cases h : s.is_occupied <;> simp [Function.comp_def, h]

theorem tick_site_times (lat : Lattice) (δ : ℚ) :
    (lat.update_site_occupation_times δ).sites.map (fun s => s.time_occupied) =
      lat.sites.map (fun s =>
        if s.is_occupied then s.time_occupied + δ else s.time_occupied) := by
  unfold Lattice.update_site_occupation_times
  simp only [List.map_map]
  apply List.map_congr_left
  intro s _
  by_cases h : s.is_occupied <;> simp [Function.comp_def, h]

theorem update_site_numflag (lat : Lattice) (j : Jump) :
    (lat.update j).sites.map (fun s => (s.number, s.is_occupied)) =
      lat.sites.map (fun s => (s.number,
        if s.number = j.initial_site.number then false
        else if s.number = j.final_site.number then true
        else s.is_occupied)) := by
  unfold Lattice.update
  simp only [List.map_map]
  apply List.map_congr_left
  intro s _
  unfold applyJumpToSite
  by_cases h1 : s.number = j.initial_site.number
  · simp [Function.comp_def, h1]
  · by_cases h2 : s.number = j.final_site.number
    · rw [h2] at h1
      simp [Function.comp_def, h1, h2]
    · simp [Function.comp_def, h1, h2]

theorem update_site_times (lat : Lattice) (j : Jump) :
    (lat.update j).sites.map (fun s => s.time_occupied) =
      lat.sites.map (fun s => s.time_occupied) := by
  unfold Lattice.update
  simp only [List.map_map]
  apply List.map_congr_left
  intro s _
  unfold applyJumpToSite
  by_cases h1 : s.number = j.initial_site.number
  · simp [Function.comp_def, h1]
  · by_cases h2 : s.number = j.final_site.number
    · rw [h2] at h1
      simp [Function.comp_def, h1, h2]
    · simp [Function.comp_def, h1, h2]

theorem countOccupied_eq_countP (lat : Lattice) :
    lat.countOccupied = lat.sites.countP (fun s => s.is_occupied) :=
  (List.countP_eq_length_filter _ _).symm

theorem sum_tick_times (l : List Site) (δ : ℚ) :
    (l.map (fun s =>
      if s.is_occupied then s.time_occupied + δ else s.time_occupied)).sum =
      (l.map (fun s => s.time_occupied)).sum +
        (l.countP (fun s => s.is_occupied) : ℚ) * δ := by
  induction l with
  | nil => simp
  | cons s t ih =>
    by_cases h : s.is_occupied
    · simp only [List.map_cons, List.sum_cons, List.countP_cons, h, if_pos,
        if_true, ih]
      push_cast
      ring
    · simp [List.countP_cons, h, ih]
      ring

theorem countP_flip_untouched (l : List Site) (A B : Nat)
    (hA : ∀ s ∈ l, s.number ≠ A) (hB : ∀ s ∈ l, s.number ≠ B) :
    l.countP (fun s =>
        if s.number = A then false
        else if s.number = B then true
        else s.is_occupied) =
      l.countP (fun s => s.is_occupied) := by
  induction l with
  | nil => rfl
  | cons q t ih =>
    rw [List.countP_cons, List.countP_cons,
      ih (fun s hs => hA s (List.mem_cons_of_mem q hs))
         (fun s hs => hB s (List.mem_cons_of_mem q hs))]
    have h1 := hA q (List.mem_cons_self q t)
    have h2 := hB q (List.mem_cons_self q t)
    simp [h1, h2]

theorem countP_flip_onlyB (l : List Site) (A B : Nat) (hAB : A ≠ B)
    (hnodup : (l.map (fun s => s.number)).Nodup)
    (hA : ∀ s ∈ l, s.number ≠ A)
    (hB : ∃ s ∈ l, s.number = B ∧ s.is_occupied = false) :
    l.countP (fun s =>
        if s.number = A then false
        else if s.number = B then true
        else s.is_occupied) =
      l.countP (fun s => s.is_occupied) + 1 := by
  induction l with
  | nil => simp at hB
  | cons q t ih =>
    simp only [List.map_cons, List.nodup_cons] at hnodup
    rcases hB with ⟨p, hp, hpB, hpflag⟩
    rcases List.mem_cons.mp hp with rfl | hpt
    · have htB : ∀ x ∈ t, x.number ≠ B := by
        intro x hx hxB
        apply hnodup.1
        rw [hpB, ← hxB]
        exact List.mem_map_of_mem (fun s => s.number) hx
      rw [List.countP_cons, List.countP_cons,
        countP_flip_untouched t A B
          (fun x hx => hA x (List.mem_cons_of_mem p hx)) htB]
      have hBA : ¬ (B = A) := fun e => hAB e.symm
      simp [hpB, hBA, hpflag]
    · have hqB : q.number ≠ B := by
        intro hq
        apply hnodup.1
        rw [hq, ← hpB]
        exact List.mem_map_of_mem (fun s => s.number) hpt
      have hqA := hA q (List.mem_cons_self q t)
      rw [List.countP_cons, List.countP_cons,
        ih hnodup.2 (fun x hx => hA x (List.mem_cons_of_mem q hx))
          ⟨p, hpt, hpB, hpflag⟩]
      simp only [hqA, hqB, if_false]
      omega

theorem countP_flip_onlyA (l : List Site) (A B : Nat)
    (hnodup : (l.map (fun s => s.number)).Nodup)
    (hB : ∀ s ∈ l, s.number ≠ B)
    (hA : ∃ s ∈ l, s.number = A ∧ s.is_occupied = true) :
    l.countP (fun s =>
        if s.number = A then false
        else if s.number = B then true
        else s.is_occupied) + 1 =
      l.countP (fun s => s.is_occupied) := by
  induction l with
  | nil => simp at hA
  | cons q t ih =>
    simp only [List.map_cons, List.nodup_cons] at hnodup
    rcases hA with ⟨p, hp, hpA, hpflag⟩
    rcases List.mem_cons.mp hp with rfl | hpt
    · have htA : ∀ x ∈ t, x.number ≠ A := by
        intro x hx hxA
        apply hnodup.1
        rw [hpA, ← hxA]
        exact List.mem_map_of_mem (fun s => s.number) hx
      rw [List.countP_cons, List.countP_cons,
        countP_flip_untouched t A B htA
          (fun x hx => hB x (List.mem_cons_of_mem p hx))]
      simp [hpA, hpflag]
    · have hqA : q.number ≠ A := by
        intro hq
        apply hnodup.1
        rw [hq, ← hpA]
        exact List.mem_map_of_mem (fun s => s.number) hpt
      have hqB := hB q (List.mem_cons_self q t)
      rw [List.countP_cons, List.countP_cons, ← ih hnodup.2
        (fun x hx => hB x (List.mem_cons_of_mem q hx)) ⟨p, hpt, hpA, hpflag⟩]
      simp only [hqA, hqB, if_false]
      omega

theorem countP_flip (l : List Site) (A B : Nat) (hAB : A ≠ B)
    (hnodup : (l.map (fun s => s.number)).Nodup)
    (hA : ∃ s ∈ l, s.number = A ∧ s.is_occupied = true)
    (hB : ∃ s ∈ l, s.number = B ∧ s.is_occupied = false) :
    l.countP (fun s =>
        if s.number = A then false
        else if s.number = B then true
        else s.is_occupied) =
      l.countP (fun s => s.is_occupied) := by
  induction l with
  | nil => simp at hA
  | cons q t ih =>
    simp only [List.map_cons, List.nodup_cons] at hnodup
    rcases hA with ⟨pa, hpa, hpaA, hpaflag⟩
    rcases hB with ⟨pb, hpb, hpbB, hpbflag⟩
    by_cases hqA : q.number = A
    · have hpaq : pa = q := by
        rcases List.mem_cons.mp hpa with rfl | hpat
        · rfl
        · exfalso
          apply hnodup.1
          rw [hqA, ← hpaA]
          exact List.mem_map_of_mem (fun s => s.number) hpat
      have hpbt : pb ∈ t := by
        rcases List.mem_cons.mp hpb with rfl | h
        · exact absurd (hqA.symm.trans hpbB) hAB
        · exact h
      have htA : ∀ x ∈ t, x.number ≠ A := by
        intro x hx hxA
        apply hnodup.1
        rw [hqA, ← hxA]
        exact List.mem_map_of_mem (fun s => s.number) hx
      rw [List.countP_cons, List.countP_cons,
        countP_flip_onlyB t A B hAB hnodup.2 htA ⟨pb, hpbt, hpbB, hpbflag⟩]
      have hqflag : q.is_occupied = true := hpaq ▸ hpaflag
      simp [hqA, hqflag]
    · by_cases hqB : q.number = B
      · have hpbq : pb = q := by
          rcases List.mem_cons.mp hpb with rfl | hpbt
          · rfl
          · exfalso
            apply hnodup.1
            rw [hqB, ← hpbB]
            exact List.mem_map_of_mem (fun s => s.number) hpbt
        have hpat : pa ∈ t := by
          rcases List.mem_cons.mp hpa with rfl | h
          · exact absurd (hpaA.symm.trans hqB) hAB
          · exact h
        have htB : ∀ x ∈ t, x.number ≠ B := by
          intro x hx hxB
          apply hnodup.1
          rw [hqB, ← hxB]
          exact List.mem_map_of_mem (fun s => s.number) hx
        rw [List.countP_cons, List.countP_cons,
          ← countP_flip_onlyA t A B hnodup.2 htB
            ⟨pa, hpat, hpaA, hpaflag⟩]
        have hqflag : q.is_occupied = false := hpbq ▸ hpbflag
        have hBA : ¬ (B = A) := fun e => hAB e.symm
        simp [hqA, hqB, hqflag, hBA]
      · have hpat : pa ∈ t := by
          rcases List.mem_cons.mp hpa with rfl | h
          · exact absurd hpaA hqA
          · exact h
        have hpbt : pb ∈ t := by
          rcases List.mem_cons.mp hpb with rfl | h
          · exact absurd hpbB hqB
          · exact h
        rw [List.countP_cons, List.countP_cons,
          ih hnodup.2 ⟨pa, hpat, hpaA, hpaflag⟩ ⟨pb, hpbt, hpbB, hpbflag⟩]
        simp [hqA, hqB]

theorem tick_update_numflag (lat : Lattice) (δ : ℚ) (j : Jump) :
    ((lat.update_site_occupation_times δ).update j).sites.map
        (fun s => (s.number, s.is_occupied)) =
      lat.sites.map (fun s => (s.number,
        if s.number = j.initial_site.number then false
        else if s.number = j.final_site.number then true
        else s.is_occupied)) := by
  unfold Lattice.update Lattice.update_site_occupation_times
  simp only [List.map_map]
  apply List.map_congr_left
  intro s _
  simp only [Function.comp_def]
  by_cases h0 : s.is_occupied <;>
  · simp only [h0, if_true, if_false, Bool.false_eq_true]
    unfold applyJumpToSite
    by_cases h1 : s.number = j.initial_site.number
    · simp [h1]
    · by_cases h2 : s.number = j.final_site.number
      · rw [h2] at h1
        simp [h1, h2]
      · simp [h1, h2, h0]

theorem tick_update_times (lat : Lattice) (δ : ℚ) (j : Jump) :
    ((lat.update_site_occupation_times δ).update j).sites.map
        (fun s => s.time_occupied) =
      lat.sites.map (fun s =>
        if s.is_occupied then s.time_occupied + δ else s.time_occupied) := by
  unfold Lattice.update Lattice.update_site_occupation_times
  simp only [List.map_map]
  apply List.map_congr_left
  intro s _
  simp only [Function.comp_def]
  by_cases h0 : s.is_occupied <;>
  · simp only [h0, if_true, if_false, Bool.false_eq_true]
    unfold applyJumpToSite
    by_cases h1 : s.number = j.initial_site.number
    · simp [h1]
    · by_cases h2 : s.number = j.final_site.number
      · rw [h2] at h1
        simp [h1, h2]
      · simp [h1, h2]

theorem tick_update_countP (lat : Lattice) (δ : ℚ) (j : Jump) :
    ((lat.update_site_occupation_times δ).update j).sites.countP
        (fun s => s.is_occupied) =
      lat.sites.countP (fun s =>
        if s.number = j.initial_site.number then false
        else if s.number = j.final_site.number then true
        else s.is_occupied) := by
  have h := congrArg (List.countP (fun p : Nat × Bool => p.2))
    (tick_update_numflag lat δ j)
  rw [List.countP_map, List.countP_map] at h
  exact h

theorem jump_error_of_nil (lat : Lattice) (sel : Nat) (w1 w2 : ℚ)
    (hpj : lat.potential_jumps = []) :
    lat.jump sel w1 w2 = Except.error LatticeError.NoTransitionsAvailable := by
  unfold Lattice.jump
  rw [hpj]
  rfl

theorem jump_eq_of_ne_nil (lat : Lattice) (sel : Nat) (w1 w2 : ℚ)
    (hpj : lat.potential_jumps ≠ []) :
    lat.jump sel w1 w2 = Except.ok
      (Lattice.update
        (Lattice.update_site_occupation_times
          { lat with time := lat.time + w1 } w1)
        (lat.potential_jumps.get
          ⟨sel % lat.potential_jumps.length,
           Nat.mod_lt _ (List.length_pos.mpr hpj)⟩), w2) := by
  unfold Lattice.jump
  simp [Transitions.random, Transitions.time_to_jump, hpj, Bind.bind,
    Except.bind, pure, Except.pure]

theorem jump_ok_elim (lat : Lattice) (sel : Nat) (w1 w2 : ℚ)
    (lat' : Lattice) (r : ℚ)
    (h : lat.jump sel w1 w2 = Except.ok (lat', r)) :
    ∃ j ∈ lat.potential_jumps,
      lat' = Lattice.update
        (Lattice.update_site_occupation_times
          { lat with time := lat.time + w1 } w1) j ∧ r = w2 := by
  by_cases hpj : lat.potential_jumps = []
  · rw [jump_error_of_nil lat sel w1 w2 hpj] at h
    exact absurd h (by simp)
  · rw [jump_eq_of_ne_nil lat sel w1 w2 hpj] at h
    have h2 := Except.ok.inj h
    exact ⟨_, List.get_mem _ _ _,
      (congrArg Prod.fst h2).symm, (congrArg Prod.snd h2).symm⟩

/-- Everything one successful `jump()` call does to the observable state:
occupied-site count, occupancy field and site identifiers are conserved, time
advances by the first waiting-time draw, the same draw is added to
`time_occupied` of exactly the sites occupied before the jump, the total
occupied time grows by (count × draw), the returned value is the second draw,
and the occupation flags change by clearing one occupied source identifier
and setting one vacant target identifier. -/
theorem jump_step_facts (lat : Lattice) (sel : Nat) (w1 w2 : ℚ)
    (lat' : Lattice) (r : ℚ)
    (hnodup : (lat.sites.map (fun s => s.number)).Nodup)
    (h : lat.jump sel w1 w2 = Except.ok (lat', r)) :
    lat'.countOccupied = lat.countOccupied ∧
    lat'.number_of_occupied_sites = lat.number_of_occupied_sites ∧
    lat'.sites.map (fun s => s.number) = lat.sites.map (fun s => s.number) ∧
    lat'.time = lat.time + w1 ∧
    lat'.sites.map (fun s => s.time_occupied) =
      lat.sites.map (fun s =>
        if s.is_occupied then s.time_occupied + w1 else s.time_occupied) ∧
    lat'.totalOccupiedTime =
      lat.totalOccupiedTime + (lat.countOccupied : ℚ) * w1 ∧
    r = w2 ∧
    (∃ A B, A ≠ B ∧
      (∃ sa ∈ lat.sites, sa.number = A ∧ sa.is_occupied = true) ∧
      (∃ sb ∈ lat.sites, sb.number = B ∧ sb.is_occupied = false) ∧
      lat'.sites.map (fun s => (s.number, s.is_occupied)) =
        lat.sites.map (fun s => (s.number,
          if s.number = A then false
          else if s.number = B then true
          else s.is_occupied))) := by
  obtain ⟨j, hjmem, rfl, rfl⟩ := jump_ok_elim lat sel w1 w2 lat' r h
  obtain ⟨hjin, hjinocc, hjfin, hjfinocc⟩ := potential_jumps_sound lat j hjmem
  set lat1 : Lattice := { lat with time := lat.time + w1 } with hlat1
  have hAB : j.initial_site.number ≠ j.final_site.number := by
    intro he
    have heq := List.inj_on_of_nodup_map hnodup hjin hjfin he
    rw [heq, hjfinocc] at hjinocc
    exact Bool.false_ne_true hjinocc
  have hsame : lat1.sites = lat.sites := rfl
  have hpair :
      ((lat1.update_site_occupation_times w1).update j).sites.map
        (fun s => (s.number, s.is_occupied)) =
      lat.sites.map (fun s => (s.number,
        if s.number = j.initial_site.number then false
        else if s.number = j.final_site.number then true
        else s.is_occupied)) := by
    rw [tick_update_numflag, hsame]
  have htimes :
      ((lat1.update_site_occupation_times w1).update j).sites.map
        (fun s => s.time_occupied) =
      lat.sites.map (fun s =>
        if s.is_occupied then s.time_occupied + w1 else s.time_occupied) := by
    rw [tick_update_times, hsame]
  have hnums :
      ((lat1.update_site_occupation_times w1).update j).sites.map
        (fun s => s.number) = lat.sites.map (fun s => s.number) := by
    have h3 := congrArg (List.map Prod.fst) hpair
    rw [List.map_map, List.map_map] at h3
    exact h3
  have hcount :
      ((lat1.update_site_occupation_times w1).update j).countOccupied =
        lat.countOccupied := by
    rw [countOccupied_eq_countP, countOccupied_eq_countP,
      tick_update_countP, hsame]
    exact countP_flip lat.sites j.initial_site.number j.final_site.number
      hAB hnodup ⟨j.initial_site, hjin, rfl, hjinocc⟩
      ⟨j.final_site, hjfin, rfl, hjfinocc⟩
  have htotal :
      ((lat1.update_site_occupation_times w1).update j).totalOccupiedTime =
        lat.totalOccupiedTime + (lat.countOccupied : ℚ) * w1 := by
    unfold Lattice.totalOccupiedTime
    rw [htimes, sum_tick_times, countOccupied_eq_countP]
  exact ⟨hcount, rfl, hnums, rfl, htimes, htotal, rfl,
    j.initial_site.number, j.final_site.number, hAB,
    ⟨j.initial_site, hjin, rfl, hjinocc⟩,
    ⟨j.final_site, hjfin, rfl, hjfinocc⟩, hpair⟩

theorem runSteps_invariant (inputs : List (Nat × ℚ × ℚ)) (lat : Lattice)
    (hnodup : (lat.sites.map (fun s => s.number)).Nodup) :
    (lat.runSteps inputs).countOccupied = lat.countOccupied ∧
    (lat.runSteps inputs).number_of_occupied_sites =
      lat.number_of_occupied_sites ∧
    (lat.runSteps inputs).sites.map (fun s => s.number) =
      lat.sites.map (fun s => s.number) := by
  induction inputs generalizing lat with
  | nil => exact ⟨rfl, rfl, rfl⟩
  | cons input rest ih =>
    unfold Lattice.runSteps
    cases hj : lat.jump input.1 input.2.1 input.2.2 with
    | ok pr =>
      obtain ⟨lat2, r⟩ := pr
      obtain ⟨hc, hf, hn, -, -, -, -, -⟩ :=
        jump_step_facts lat input.1 input.2.1 input.2.2 lat2 r hnodup hj
      have hnodup2 : (lat2.sites.map (fun s => s.number)).Nodup := by
        rw [hn]
        exact hnodup
      obtain ⟨ihc, ihf, ihn⟩ := ih lat2 hnodup2
      exact ⟨ihc.trans hc, ihf.trans hf, ihn.trans hn⟩
    | error e => exact ih lat hnodup

theorem runSteps_time_accounting (inputs : List (Nat × ℚ × ℚ))
    (lat : Lattice) (n : Nat)
    (hnodup : (lat.sites.map (fun s => s.number)).Nodup)
    (hcount : lat.countOccupied = n)
    (htotal : lat.totalOccupiedTime = (n : ℚ) * lat.time) :
    (lat.runSteps inputs).totalOccupiedTime =
      (n : ℚ) * (lat.runSteps inputs).time := by
  induction inputs generalizing lat with
  | nil => exact htotal
  | cons input rest ih =>
    unfold Lattice.runSteps
    cases hj : lat.jump input.1 input.2.1 input.2.2 with
    | ok pr =>
      obtain ⟨lat2, r⟩ := pr
      obtain ⟨hc, -, hn, ht, -, htot, -, -⟩ :=
        jump_step_facts lat input.1 input.2.1 input.2.2 lat2 r hnodup hj
      apply ih lat2
      · rw [hn]
        exact hnodup
      · rw [hc, hcount]
      · rw [htot, ht, hcount, htotal]
        ring
    | error e => exact ih lat hnodup hcount htotal

theorem countP_congr_list {α : Type} (l : List α) (p q : α → Bool)
    (h : ∀ m ∈ l, p m = q m) : l.countP p = l.countP q := by
  induction l with
  | nil => rfl
  | cons a t ih =>
    rw [List.countP_cons, List.countP_cons,
      ih (fun m hm => h m (List.mem_cons_of_mem a hm)),
      h a (List.mem_cons_self a t)]

theorem countP_mem_sub (big : List Nat) (sub : List Nat)
    (hbig : big.Nodup) (hsub : sub.Nodup) (hss : ∀ m ∈ sub, m ∈ big) :
    big.countP (fun m => decide (m ∈ sub)) = sub.length := by
  induction big generalizing sub with
  | nil =>
    cases sub with
    | nil => rfl
    | cons a t => exact absurd (hss a (List.mem_cons_self a t)) (by simp)
  | cons b t ih =>
    rw [List.countP_cons]
    simp only [List.nodup_cons] at hbig
    by_cases hmem : b ∈ sub
    · have hcongr : t.countP (fun m => decide (m ∈ sub)) =
          t.countP (fun m => decide (m ∈ sub.erase b)) := by
        apply countP_congr_list
        intro m hm
        apply decide_eq_decide.mpr
        have hmb : m ≠ b := fun e => hbig.1 (e ▸ hm)
        rw [hsub.mem_erase_iff]
        constructor
        · exact fun h2 => ⟨hmb, h2⟩
        · exact fun h2 => h2.2
      have hsubset : ∀ m ∈ sub.erase b, m ∈ t := by
        intro m hm
        rcases hsub.mem_erase_iff.mp hm with ⟨hmb, hmsub⟩
        rcases List.mem_cons.mp (hss m hmsub) with rfl | h2
        · exact absurd rfl hmb
        · exact h2
      rw [hcongr, ih (sub.erase b) hbig.2 (hsub.erase b) hsubset]
      have hlen := List.length_erase_of_mem hmem
      have hpos := List.length_pos_of_mem hmem
      simp only [hmem, decide_True, if_pos]
      omega
    · have hss2 : ∀ m ∈ sub, m ∈ t := by
        intro m hm
        rcases List.mem_cons.mp (hss m hm) with rfl | h2
        · exact absurd hm hmem
        · exact h2
      rw [ih sub hbig.2 hsub hss2]
      simp [hmem]

theorem populate_sites_count (lat : Lattice) (sample : List Site) (n : Nat)
    (lat2 : Lattice) (atoms : List Atom)
    (hnodup : (lat.sites.map (fun s => s.number)).Nodup)
    (hvac : ∀ s ∈ lat.sites, s.is_occupied = false)
    (hsnodup : (sample.map (fun s => s.number)).Nodup)
    (hsub : ∀ s ∈ sample, s ∈ lat.sites)
    (hok : lat.populate_sites sample n = Except.ok (lat2, atoms)) :
    lat2.countOccupied = sample.length ∧
    lat2.number_of_occupied_sites = n ∧
    lat2.sites.map (fun s => s.number) = lat.sites.map (fun s => s.number) := by
  unfold Lattice.populate_sites at hok
  by_cases hle : n ≤ lat.number_of_sites
  · rw [if_pos hle] at hok
    have h2 := Except.ok.inj hok
    have hlat2 : lat2 = { lat with
        sites := lat.sites.map (fun s =>
          match (mkAtoms sample).find? (fun a => a.site == s.number) with
          | some a => { s with is_occupied := true, occupation := a.number,
                               atom := some a.number }
          | none => s),
        number_of_occupied_sites := n,
        atoms := mkAtoms sample } := (congrArg Prod.fst h2).symm
    subst hlat2
    refine ⟨?_, rfl, ?_⟩
    · rw [countOccupied_eq_countP]
      show (List.map _ lat.sites).countP (fun s : Site => s.is_occupied) =
        sample.length
      rw [List.countP_map]
      have hpoint : ∀ s ∈ lat.sites,
          ((fun s => s.is_occupied) ∘ (fun s =>
            match (mkAtoms sample).find? (fun a => a.site == s.number) with
            | some a => { s with is_occupied := true, occupation := a.number,
                                 atom := some a.number }
            | none => s)) s =
          decide (s.number ∈ sample.map (fun s => s.number)) := by
        intro s hs
        simp only [Function.comp_def]
        cases hfind : (mkAtoms sample).find? (fun a => a.site == s.number)
          with
        | some a =>
          have ha := List.find?_some hfind
          have hamem := List.mem_of_find?_eq_some hfind
          have : s.number ∈ sample.map (fun s => s.number) := by
            have hsite : a.site = s.number := by simpa using ha
            rw [← mkAtomsFrom_sites 1 sample, ← hsite]
            exact List.mem_map_of_mem (fun a => a.site) hamem
          simp [this]
        | none =>
          have : s.number ∉ sample.map (fun s => s.number) := by
            intro hmem
            rw [← mkAtomsFrom_sites 1 sample] at hmem
            rcases List.mem_map.mp hmem with ⟨a, ha, hasite⟩
            have : ((mkAtoms sample).find?
                (fun a => a.site == s.number)).isSome = true :=
              List.find?_isSome.mpr ⟨a, ha, by simp [hasite]⟩
            rw [hfind] at this
            simp at this
          simp [this, hvac s hs]
      rw [countP_congr_list lat.sites _ _ hpoint]
      have hmapcount :
          lat.sites.countP
              (fun s => decide (s.number ∈ sample.map (fun s => s.number))) =
            (lat.sites.map (fun s => s.number)).countP
              (fun m => decide (m ∈ sample.map (fun s => s.number))) := by
        rw [List.countP_map]
        rfl
      rw [hmapcount, countP_mem_sub (lat.sites.map (fun s => s.number))
        (sample.map (fun s => s.number)) hnodup hsnodup ?_,
        List.length_map]
      intro m hm
      rcases List.mem_map.mp hm with ⟨s, hsmem, rfl⟩
      exact List.mem_map_of_mem (fun s => s.number) (hsub s hsmem)
    · rw [List.map_map]
      apply List.map_congr_left
      intro s _
      simp only [Function.comp_def]
      cases hfind : (mkAtoms sample).find? (fun a => a.site == s.number) with
      | some a => simp [hfind]
      | none => simp [hfind]
  · rw [if_neg hle] at hok
    exact absurd hok (by simp)

/-! Claim theorems. -/

/-- C9: `reset()` zeroes the lattice time and every site's `time_occupied`,
and changes nothing else: every other site field (identifier, label, position,
neighbours, occupation flag, `occupation`, occupying atom), every atom, the
cell lengths and both counters are unchanged. -/
theorem reset_zeroes_only_clocks (lat : Lattice) :
    (lat.reset).time = 0 ∧
    ((lat.reset).sites.map (fun s => s.time_occupied)) =
      lat.sites.map (fun _ => (0 : ℚ)) ∧
    ((lat.reset).sites.map (fun s =>
        (s.number, s.label, s.r, s.neighbours, s.is_occupied, s.occupation,
         s.atom))) =
      (lat.sites.map (fun s =>
        (s.number, s.label, s.r, s.neighbours, s.is_occupied, s.occupation,
         s.atom))) ∧
    (lat.reset).atoms = lat.atoms ∧
    (lat.reset).cell_lengths = lat.cell_lengths ∧
    (lat.reset).number_of_sites = lat.number_of_sites ∧
    (lat.reset).number_of_occupied_sites = lat.number_of_occupied_sites := by
  refine ⟨rfl, ?_, ?_, rfl, rfl, rfl, rfl⟩ <;>
    simp [Lattice.reset, List.map_map, Function.comp_def]

/-- C3 counterexample: a site constructed with coordinate 5/2 in a cell of
length 1 is wrapped to 3/2 by `Lattice.__init__`, which does NOT lie in
`[0, 1)` — the single conditional shift of
`enforce_periodic_boundary_conditions` wraps by at most one cell length. -/
theorem boundary_wrap_counterexample :
    ((Lattice.init [c3Site] (1, 1, 1)).sites.map (fun s => s.r.1)) =
      [3/2] ∧ ¬ ((3 : ℚ)/2 < 1) := by
  constructor
  · simp only [Lattice.init, Lattice.reset, Lattice.enforce_periodic_boundary_conditions,
      enforceSite, c3Site, wrapCoordinate, List.map_cons, List.map_nil]
    norm_num
  · norm_num

/-- C3 amended: construction wraps every coordinate by exactly one cell
length when needed (`-L`, `0` or `+L`, hence the result is congruent to the
original modulo the cell length), and the wrapped coordinate lies in `[0, L)`
provided the original coordinate lies in `[-L, L)`; outside that window a
single shift is not enough (see the counterexample). -/
theorem boundary_wrap_amended (sites : List Site) (L : ℚ × ℚ × ℚ) :
    ((Lattice.init sites L).sites.map (fun s => s.r)) =
      sites.map (fun s => (wrapCoordinate L.1 s.r.1,
                           wrapCoordinate L.2.1 s.r.2.1,
                           wrapCoordinate L.2.2 s.r.2.2)) ∧
    (∀ len x : ℚ, 0 < len →
      (∃ k : ℤ, (k = -1 ∨ k = 0 ∨ k = 1) ∧
        wrapCoordinate len x = x + k * len) ∧
      (-len ≤ x → x < len →
        0 ≤ wrapCoordinate len x ∧ wrapCoordinate len x < len)) := by
  constructor
  · simp [Lattice.init, Lattice.reset, Lattice.enforce_periodic_boundary_conditions,
      enforceSite]
  · intro len x hlen
    unfold wrapCoordinate
    constructor
    · by_cases h1 : x < 0
      · by_cases h2 : x + len > len
        · exact absurd (by linarith) (not_lt.mpr (le_of_lt h1))
        · refine ⟨1, Or.inr (Or.inr rfl), ?_⟩
          simp [h1, h2]
      · by_cases h2 : x > len
        · refine ⟨-1, Or.inl rfl, ?_⟩
          simp [h1, h2]
          ring
        · refine ⟨0, Or.inr (Or.inl rfl), ?_⟩
          simp [h1, h2]
    · intro hlo hhi
      by_cases h1 : x < 0
      · have h2 : ¬ (x + len > len) := by linarith
        simp only [if_pos h1, if_neg h2]
        constructor <;> linarith
      · have h2 : ¬ (x > len) := by linarith
        simp only [if_neg h1, if_neg h2]
        constructor <;> linarith

/-- C3 amended, witness: the coordinate -1/2 in a cell of length 1 is wrapped
into `[0, 1)`. -/
theorem boundary_wrap_amended_witness :
    0 ≤ wrapCoordinate 1 (-1/2) ∧ wrapCoordinate 1 (-1/2) < 1 :=
  ((boundary_wrap_amended [] (1, 1, 1)).2 1 (-1/2) (by norm_num)).2
    (by norm_num) (by norm_num)

/-- C10: the keys of `site_coordination_numbers()` are exactly the distinct
site labels (each key occurring once), and the value of a label is the
neighbour-list length of the FIRST site in `sites` order carrying that label;
later sites with the same label do not affect the result. -/
theorem site_coordination_numbers_first_site (lat : Lattice) :
    ((lat.site_coordination_numbers.map Prod.fst).Nodup) ∧
    (∀ lab, lab ∈ lat.site_coordination_numbers.map Prod.fst ↔
      ∃ s ∈ lat.sites, s.label = lab) ∧
    (∀ lab s0, lat.sites.find? (fun s => s.label == lab) = some s0 →
      lat.site_coordination_numbers.find? (fun q => q.1 == lab) =
        some (lab, s0.neighbours.length)) := by
  refine ⟨?_, ?_, ?_⟩
  · exact coord_keys_nodup lat.sites [] (by simp)
  · intro lab
    rw [Lattice.site_coordination_numbers, coord_keys_mem]
    simp
  · intro lab s0 h
    exact coord_find_new lat.sites [] lab s0 (by simp) h

/-- C2: in EVERY lattice state whose candidate jump set is empty, `jump()`
surfaces `NoTransitionsAvailable` as a distinct outcome instead of a state
change: the sampling failure occurs before the first mutating statement of
`jump()` (lines 97-99 run after lines 95-96), so no successor state is
produced and a driving loop keeps the lattice — time, site occupations,
occupied times and particles — exactly as it was.  In particular a fully
occupied lattice has an empty candidate set. -/
theorem deadlock_reports_no_transitions :
    (∀ (lat : Lattice) (sel : Nat) (w1 w2 : ℚ),
      lat.potential_jumps = [] →
      lat.jump sel w1 w2 =
        Except.error LatticeError.NoTransitionsAvailable ∧
      lat.runSteps [(sel, w1, w2)] = lat) ∧
    (∀ lat : Lattice, (∀ s ∈ lat.sites, s.is_occupied = true) →
      lat.potential_jumps = []) := by
  constructor
  · intro lat sel w1 w2 hpj
    have hjump : lat.jump sel w1 w2 =
        Except.error LatticeError.NoTransitionsAvailable := by
      unfold Lattice.jump
      rw [hpj]
      rfl
    refine ⟨hjump, ?_⟩
    unfold Lattice.runSteps
    rw [hjump]
    rfl
  · intro lat h
    unfold Lattice.potential_jumps
    split
    · apply List.flatMap_eq_nil_iff.mpr
      intro occ hocc
      have hfilter :
          ((occ.neighbours.filterMap lat.site_with_id).filter
            (fun site => !site.is_occupied)) = [] := by
        apply List.filter_eq_nil_iff.mpr
        intro site hsite
        rcases List.mem_filterMap.mp hsite with ⟨n, _, hfind⟩
        have hmem : site ∈ lat.sites := List.mem_of_find?_eq_some hfind
        simp [h site hmem]
      rw [hfilter]
      rfl
    · have hvac : lat.vacant_sites = [] := by
        apply List.filter_eq_nil_iff.mpr
        intro site hsite
        simp [h site hsite]
      rw [hvac]
      rfl

/-- C2 witness: `latIso` (an occupied site with no neighbours next to a
vacant site — a deadlocked but NOT fully occupied state) steps to the
`NoTransitionsAvailable` outcome without a state change, and the fully
occupied one-site lattice indeed has an empty candidate set. -/
theorem deadlock_reports_no_transitions_witness :
    (latIso.jump 0 1 1 = Except.error LatticeError.NoTransitionsAvailable ∧
     latIso.runSteps [(0, 1, 1)] = latIso) ∧
    latFull.potential_jumps = [] :=
  ⟨deadlock_reports_no_transitions.1 latIso 0 1 1 (by rfl),
   deadlock_reports_no_transitions.2 latFull (by decide)⟩

/-- C1, evaluated at the failing input: on the two-site lattice with one
candidate jump and waiting-time draws 1 (first `time_to_jump()` call, line 96)
and 2 (second call, line 100), `jump()` advances `time` by 1 but returns 2 —
the value handed to the caller is a fresh, independent draw, not the waiting
time that was added to `time` and to the occupied sites. -/
theorem jump_returns_second_draw :
    (lat2s.jump 0 1 2).map (fun p => (p.1.time, p.2)) =
      Except.ok ((1 : ℚ), (2 : ℚ)) ∧ (1 : ℚ) ≠ 2 := by
  constructor
  · have hpj : lat2s.potential_jumps = [Jump.mk siteA siteB] := rfl
    unfold Lattice.jump
    rw [hpj]
    simp only [Transitions.random, Transitions.time_to_jump]
    norm_num [Except.map, lat2s, Lattice.update_site_occupation_times,
      Lattice.update, Except.bind, Bind.bind, pure, Except.pure]
  · norm_num

/-- C8 counterexample: a lattice constructed with no sites has elapsed time 0,
yet `site_occupation_statistics()` returns the empty mapping instead of
failing — the division loop never runs, so the zero-time guard the claim
demands never fires. -/
theorem site_occupation_statistics_counterexample :
    (Lattice.init [] (1, 1, 1)).time = 0 ∧
    (Lattice.init [] (1, 1, 1)).site_occupation_statistics =
      Except.ok [] := by
  exact ⟨rfl, rfl⟩

/-- C8 amended: whenever the elapsed time is nonzero,
`site_occupation_statistics()` returns the mapping whose keys are exactly the
site labels and whose value at each label is the summed `time_occupied` of the
sites carrying that label divided by the elapsed time; when the elapsed time
is zero and the lattice has at least one site, the division raises
(`ZeroDivisionError`, the `UndefinedStatistic` outcome) rather than silently
producing an artifact.  A lattice with no sites returns the empty mapping even
at time zero. -/
theorem site_occupation_statistics_spec (lat : Lattice) :
    (lat.time ≠ 0 → ∃ m, lat.site_occupation_statistics = Except.ok m ∧
      (∀ lab, lab ∈ m.map Prod.fst ↔ lab ∈ lat.sites.map Site.label) ∧
      (∀ lab, lab ∈ lat.sites.map Site.label →
        m.find? (fun p => p.1 == lab) =
          some (lab, lat.label_occupied_time lab / lat.time))) ∧
    (lat.sites ≠ [] → lat.time = 0 →
      lat.site_occupation_statistics =
        Except.error LatticeError.UndefinedStatistic) := by
  constructor
  · intro ht
    refine ⟨lat.site_labels.map
      (fun label => (label, lat.label_occupied_time label / lat.time)),
      ?_, ?_, ?_⟩
    · unfold Lattice.site_occupation_statistics
      rw [if_neg (fun hc => ht hc.2)]
    · intro lab
      simp [Lattice.site_labels, List.map_map, Function.comp_def,
        List.mem_dedup]
    · intro lab hlab
      apply find?_map_pair
      rw [Lattice.site_labels, List.mem_dedup]
      exact hlab
  · intro hs h0
    have hlabels : lat.site_labels ≠ [] := by
      rcases hne : lat.sites with _ | ⟨s, rest⟩
      · exact absurd hne hs
      · have hmem : s.label ∈ lat.site_labels := by
          rw [Lattice.site_labels, hne, List.mem_dedup]
          exact List.mem_map_of_mem _ (List.mem_cons_self s rest)
        exact List.ne_nil_of_mem hmem
    unfold Lattice.site_occupation_statistics
    rw [if_pos ⟨hlabels, h0⟩]

/-- C8 amended, witness: on a one-site lattice with elapsed time 1 the
statistics succeed with the expected per-label quotient. -/
theorem site_occupation_statistics_spec_witness :
    ∃ m, latC8.site_occupation_statistics = Except.ok m ∧
      (∀ lab, lab ∈ m.map Prod.fst ↔ lab ∈ latC8.sites.map Site.label) ∧
      (∀ lab, lab ∈ latC8.sites.map Site.label →
        m.find? (fun p => p.1 == lab) =
          some (lab, latC8.label_occupied_time lab / latC8.time)) :=
  (site_occupation_statistics_spec latC8).1 (by norm_num [latC8])

/-- C10 witness: on a lattice whose two sites both carry label "A" with 1 and
3 neighbours respectively, the mapping holds label "A" with value 1 (the first
site's coordination number). -/
theorem site_coordination_numbers_first_site_witness :
    latC10.site_coordination_numbers.find? (fun q => q.1 == "A") =
      some ("A", 1) :=
  (site_coordination_numbers_first_site latC10).2.2 "A"
    { number := 0, label := "A", r := (0, 0, 0), neighbours := [1],
      is_occupied := false, occupation := 0, atom := none,
      time_occupied := 0 }
    (by rfl)

/-- C7: `populate_sites(n)` fails (the `assert`, realising
`InvalidConfiguration`) exactly when the request exceeds the site count;
otherwise, for any selection satisfying the contract of
`random.sample(self.sites, n)` (a length-`n` choice of sites of the lattice;
uniformity is a property of the abstracted sampler, not of this code), it
creates one particle per selected site with distinct identifiers, each
occupying its site, and sets `number_of_occupied_sites = n`. -/
theorem populate_sites_spec (lat : Lattice) (sample : List Site) (n : Nat) :
    (lat.number_of_sites < n →
      lat.populate_sites sample n =
        Except.error LatticeError.InvalidConfiguration) ∧
    (n ≤ lat.number_of_sites → sample.length = n →
      (∀ s ∈ sample, s ∈ lat.sites) →
      ∃ lat2 atoms, lat.populate_sites sample n = Except.ok (lat2, atoms) ∧
        atoms.length = n ∧
        (atoms.map (fun a => a.number)).Nodup ∧
        atoms.map (fun a => a.site) = sample.map (fun s => s.number) ∧
        lat2.number_of_occupied_sites = n ∧
        lat2.atoms = atoms ∧
        (∀ s ∈ sample, ∀ t ∈ lat2.sites, t.number = s.number →
          t.is_occupied = true ∧ t.atom.isSome = true)) := by
  constructor
  · intro hlt
    unfold Lattice.populate_sites
    rw [if_neg (by omega)]
  · intro hle hlen _
    unfold Lattice.populate_sites
    rw [if_pos hle]
    refine ⟨_, mkAtoms sample, rfl, ?_, ?_, ?_, rfl, rfl, ?_⟩
    · rw [mkAtoms, mkAtomsFrom_length, hlen]
    · exact mkAtomsFrom_numbers_nodup 1 sample
    · exact mkAtomsFrom_sites 1 sample
    · intro s hs t ht hnum
      simp only [List.mem_map] at ht
      rcases ht with ⟨s0, _, rfl⟩
      have hexists : ∃ a ∈ mkAtoms sample, (a.site == s0.number) = true := by
        have hsnum : s.number ∈ (mkAtoms sample).map (fun a => a.site) := by
          rw [mkAtoms, mkAtomsFrom_sites]
          exact List.mem_map_of_mem _ hs
        rcases List.mem_map.mp hsnum with ⟨a, ha, hasite⟩
        refine ⟨a, ha, ?_⟩
        have hs0 : s0.number = s.number := by
          rcases hfind : (mkAtoms sample).find?
              (fun a => a.site == s0.number) with _ | a' <;>
            simpa [hfind] using hnum
        rw [beq_iff_eq, hasite, hs0]
      rcases hfind : (mkAtoms sample).find? (fun a => a.site == s0.number)
          with _ | a'
      · rw [← List.find?_isSome] at hexists
        rw [hfind] at hexists
        simp at hexists
      · simp [hfind]

/-- C7 witness: populating one of two sites succeeds with one particle
occupying the selected site, and over-populating is not possible here
(`2 < 1` is false; the failure branch is exercised vacuously through the
theorem's first conjunct at `n = 3`). -/
theorem populate_sites_spec_witness :
    (latEmpty2.populate_sites [] 3 =
      Except.error LatticeError.InvalidConfiguration) ∧
    (∃ lat2 atoms,
      latEmpty2.populate_sites [siteA0] 1 = Except.ok (lat2, atoms) ∧
      atoms.length = 1 ∧
      (atoms.map (fun a => a.number)).Nodup ∧
      atoms.map (fun a => a.site) = [siteA0].map (fun s => s.number) ∧
      lat2.number_of_occupied_sites = 1 ∧
      lat2.atoms = atoms ∧
      (∀ s ∈ [siteA0], ∀ t ∈ lat2.sites, t.number = s.number →
        t.is_occupied = true ∧ t.atom.isSome = true)) :=
  ⟨(populate_sites_spec latEmpty2 [] 3).1 (by decide),
   (populate_sites_spec latEmpty2 [siteA0] 1).2 (by decide) rfl
     (by intro s hs
         rcases List.mem_cons.mp hs with rfl | h
         · exact List.mem_cons_self _ _
         · simp at h)⟩

/-- C6 counterexample: with an asymmetric adjacency list (occupied site 0
lists vacant site 2 as neighbour, site 2 lists nobody) and a majority of
occupied sites, `potential_jumps` iterates the vacant sites and returns
nothing, although the (occupied source 0, vacant neighbour target 2) pair
qualifies — the two optimization branches do NOT produce the same set, and
the result is not the claimed exact set. -/
theorem potential_jumps_counterexample :
    latC6.potential_jumps = [] ∧
    c6s0 ∈ latC6.sites ∧ c6s2 ∈ latC6.sites ∧
    c6s0.is_occupied = true ∧ c6s2.is_occupied = false ∧
    c6s2.number ∈ c6s0.neighbours := by
  refine ⟨rfl, ?_, ?_, rfl, rfl, ?_⟩ <;> simp [latC6, c6s0, c6s2]

/-- C6 amended: when site identifiers are distinct and the neighbour relation
is symmetric between the lattice's sites (as the spec's lattices are in
practice), `potential_jumps` contains a jump exactly when it goes from an
occupied site to a vacant site of the lattice whose identifier appears in the
source's neighbour list — independently of which optimization branch the
occupancy comparison selects, so both branches enumerate the same set. -/
theorem potential_jumps_amended (lat : Lattice)
    (hnodup : (lat.sites.map (fun s => s.number)).Nodup)
    (hsym : ∀ s ∈ lat.sites, ∀ t ∈ lat.sites,
      s.number ∈ t.neighbours ↔ t.number ∈ s.neighbours)
    (j : Jump) :
    j ∈ lat.potential_jumps ↔
      (j.initial_site ∈ lat.sites ∧ j.initial_site.is_occupied = true ∧
       j.final_site ∈ lat.sites ∧ j.final_site.is_occupied = false ∧
       j.final_site.number ∈ j.initial_site.neighbours) := by
  constructor
  · intro hj
    obtain ⟨h1, h2, h3, h4⟩ := potential_jumps_sound lat j hj
    refine ⟨h1, h2, h3, h4, ?_⟩
    unfold Lattice.potential_jumps at hj
    split at hj
    · rcases List.mem_flatMap.mp hj with ⟨occ, _, hj2⟩
      rcases List.mem_map.mp hj2 with ⟨vac, hvac, rfl⟩
      rcases List.mem_filterMap.mp (List.mem_filter.mp hvac).1 with
        ⟨m, hm, hfind⟩
      have : vac.number = m := by simpa using List.find?_some hfind
      simpa [this] using hm
    · rcases List.mem_flatMap.mp hj with ⟨vac, _, hj2⟩
      rcases List.mem_map.mp hj2 with ⟨occ, hocc, rfl⟩
      rcases List.mem_filterMap.mp (List.mem_filter.mp hocc).1 with
        ⟨m, hm, hfind⟩
      have : occ.number = m := by simpa using List.find?_some hfind
      exact (hsym vac h3 occ h1).mpr (by simpa [this] using hm)
  · rintro ⟨h1, h2, h3, h4, h5⟩
    unfold Lattice.potential_jumps
    split
    · apply List.mem_flatMap.mpr
      refine ⟨j.initial_site, List.mem_filter.mpr ⟨h1, h2⟩, ?_⟩
      apply List.mem_map.mpr
      refine ⟨j.final_site, ?_, rfl⟩
      apply List.mem_filter.mpr
      refine ⟨?_, by simp [h4]⟩
      apply List.mem_filterMap.mpr
      exact ⟨j.final_site.number, h5,
        find?_number_of_mem lat.sites hnodup _ h3⟩
    · apply List.mem_flatMap.mpr
      refine ⟨j.final_site, List.mem_filter.mpr ⟨h3, by simp [h4]⟩, ?_⟩
      apply List.mem_map.mpr
      refine ⟨j.initial_site, ?_, rfl⟩
      apply List.mem_filter.mpr
      refine ⟨?_, h2⟩
      apply List.mem_filterMap.mpr
      refine ⟨j.initial_site.number, ?_,
        find?_number_of_mem lat.sites hnodup _ h1⟩
      exact (hsym j.initial_site h1 j.final_site h3).mpr h5

/-- C6 amended, witness: on the symmetric two-site lattice the jump from
site 0 to site 1 is enumerated. -/
theorem potential_jumps_amended_witness :
    Jump.mk siteA siteB ∈ lat2s.potential_jumps ↔
      (siteA ∈ lat2s.sites ∧ siteA.is_occupied = true ∧
       siteB ∈ lat2s.sites ∧ siteB.is_occupied = false ∧
       siteB.number ∈ siteA.neighbours) :=
  potential_jumps_amended lat2s (by decide) (by decide) (Jump.mk siteA siteB)

/-- C4: populating `n` sites of a fresh (all-vacant, distinct-identifier)
lattice with a valid `random.sample` selection sets
`number_of_occupied_sites = n`, and after ANY sequence of `step()` attempts
both the field and the actual count of sites with the occupation flag set are
still exactly `n`; moreover every successful step changes the flags by
clearing exactly one occupied source site and setting exactly one vacant
target site (conserving the particle count). -/
theorem occupation_conservation :
    (∀ (lat : Lattice) (sample : List Site) (n : Nat),
      (lat.sites.map (fun s => s.number)).Nodup →
      (∀ s ∈ lat.sites, s.is_occupied = false) →
      n ≤ lat.number_of_sites → sample.length = n →
      (∀ s ∈ sample, s ∈ lat.sites) →
      (sample.map (fun s => s.number)).Nodup →
      ∃ lat1 atoms,
        lat.populate_sites sample n = Except.ok (lat1, atoms) ∧
        ∀ inputs : List (Nat × ℚ × ℚ),
          (lat1.runSteps inputs).number_of_occupied_sites = n ∧
          (lat1.runSteps inputs).countOccupied = n) ∧
    (∀ (lat : Lattice) (sel : Nat) (w1 w2 : ℚ) (lat2 : Lattice) (r : ℚ),
      (lat.sites.map (fun s => s.number)).Nodup →
      lat.jump sel w1 w2 = Except.ok (lat2, r) →
      ∃ A B, A ≠ B ∧
        (∃ sa ∈ lat.sites, sa.number = A ∧ sa.is_occupied = true) ∧
        (∃ sb ∈ lat.sites, sb.number = B ∧ sb.is_occupied = false) ∧
        lat2.sites.map (fun s => (s.number, s.is_occupied)) =
          lat.sites.map (fun s => (s.number,
            if s.number = A then false
            else if s.number = B then true
            else s.is_occupied))) := by
  constructor
  · intro lat sample n hnodup hvac hn hlen hsub hsnodup
    have hok : lat.populate_sites sample n = Except.ok
        ({ lat with
           sites := lat.sites.map (fun s =>
             match (mkAtoms sample).find? (fun a => a.site == s.number) with
             | some a => { s with is_occupied := true,
                                  occupation := a.number,
                                  atom := some a.number }
             | none => s),
           number_of_occupied_sites := n,
           atoms := mkAtoms sample }, mkAtoms sample) := by
      unfold Lattice.populate_sites
      rw [if_pos hn]
    refine ⟨_, _, hok, ?_⟩
    obtain ⟨hc, hf, hnums⟩ := populate_sites_count lat sample n _ _
      hnodup hvac hsnodup hsub hok
    intro inputs
    obtain ⟨ic, icf, -⟩ := runSteps_invariant inputs
      ({ lat with
         sites := lat.sites.map (fun s =>
           match (mkAtoms sample).find? (fun a => a.site == s.number) with
           | some a => { s with is_occupied := true, occupation := a.number,
                                atom := some a.number }
           | none => s),
         number_of_occupied_sites := n,
         atoms := mkAtoms sample })
      (by rw [hnums]; exact hnodup)
    exact ⟨icf.trans hf, ic.trans (hc.trans hlen)⟩
  · intro lat sel w1 w2 lat2 r hnodup h
    obtain ⟨-, -, -, -, -, -, -, hflip⟩ :=
      jump_step_facts lat sel w1 w2 lat2 r hnodup h
    exact hflip

/-- C4 witness: populating one of the two vacant sites and then attempting an
arbitrary concrete input sequence keeps the occupation count at 1. -/
theorem occupation_conservation_witness :
    ∃ lat1 atoms,
      latEmpty2.populate_sites [siteA0] 1 = Except.ok (lat1, atoms) ∧
      ∀ inputs : List (Nat × ℚ × ℚ),
        (lat1.runSteps inputs).number_of_occupied_sites = 1 ∧
        (lat1.runSteps inputs).countOccupied = 1 :=
  occupation_conservation.1 latEmpty2 [siteA0] 1 (by decide) (by decide)
    (by decide) rfl
    (by
      intro s hs
      rcases List.mem_cons.mp hs with rfl | h
      · exact List.mem_cons_self _ _
      · simp at h)
    (by decide)

/-- C5: in every successful `jump()` call, the first waiting-time draw
`delta_t` is added to `time` and to `time_occupied` of exactly the sites
occupied in the pre-jump configuration (the occupation change preserves every
`time_occupied`, so the accounting happens before it), growing the total
occupied time by `count × delta_t`; consequently, on every run with constant
occupancy count `n` starting from a state satisfying
`totalOccupiedTime = n × time` (e.g. a freshly populated lattice, where both
sides are 0), the sum of `time_occupied` over all sites stays equal to
`n × time`. -/
theorem occupied_time_accounting :
    (∀ (lat : Lattice) (sel : Nat) (w1 w2 : ℚ) (lat2 : Lattice) (r : ℚ),
      (lat.sites.map (fun s => s.number)).Nodup →
      lat.jump sel w1 w2 = Except.ok (lat2, r) →
      lat2.time = lat.time + w1 ∧
      lat2.sites.map (fun s => s.time_occupied) =
        lat.sites.map (fun s =>
          if s.is_occupied then s.time_occupied + w1 else s.time_occupied) ∧
      lat2.totalOccupiedTime =
        lat.totalOccupiedTime + (lat.countOccupied : ℚ) * w1) ∧
    (∀ (lat : Lattice) (n : Nat) (inputs : List (Nat × ℚ × ℚ)),
      (lat.sites.map (fun s => s.number)).Nodup →
      lat.countOccupied = n →
      lat.totalOccupiedTime = (n : ℚ) * lat.time →
      (lat.runSteps inputs).totalOccupiedTime =
        (n : ℚ) * (lat.runSteps inputs).time) := by
  constructor
  · intro lat sel w1 w2 lat2 r hnodup h
    obtain ⟨-, -, -, ht, htimes, htot, -, -⟩ :=
      jump_step_facts lat sel w1 w2 lat2 r hnodup h
    exact ⟨ht, htimes, htot⟩
  · intro lat n inputs hnodup hcount htotal
    exact runSteps_time_accounting inputs lat n hnodup hcount htotal

/-- C5 witness: on the two-site lattice with one particle, one step with
waiting-time draw 1 keeps the total occupied time equal to `1 × time`. -/
theorem occupied_time_accounting_witness :
    (lat2s.runSteps [(0, 1, 2)]).totalOccupiedTime =
      (1 : ℚ) * (lat2s.runSteps [(0, 1, 2)]).time :=
  occupied_time_accounting.2 lat2s 1 [(0, 1, 2)] (by decide) (by decide)
    (by norm_num [Lattice.totalOccupiedTime, lat2s, siteA, siteB])

end LatticeMC
